import Mathlib

/-!
Verification development for the real-estate-toolkit repository.

The repository ships two Python source files: `old_test.py` (the test driver,
which also defines the helper `is_valid_snake_case`) and
`src/real_estate_toolkit/data/loader.py` (the `DataLoader` class).  The
agent-based-model modules (`houses.py`, `consumers.py`, `house_market.py`,
`simulation.py`) are imported by the tests but absent from the repository, so
those components are modelled from the specification document; every such
definition carries a doc comment starting `Modelled from the spec:`.

Numbers are embedded as exact rationals; Python strings as lists of
characters restricted to their ASCII behaviour.
-/

namespace RealEstate

/-! ## Python character and string primitives (ASCII fragment) -/

/-- Python `char.islower()` restricted to ASCII: true exactly on a-z. -/
def pyIslower (c : Char) : Bool := 'a' ≤ c && c ≤ 'z'

/-- Python `char.isdigit()` restricted to ASCII: true exactly on 0-9. -/
def pyIsdigit (c : Char) : Bool := '0' ≤ c && c ≤ '9'

/-- Python whitespace characters stripped by `int()` / `float()` conversion. -/
def pyIsSpace (c : Char) : Bool :=
  c = ' ' || c = '\t' || c = '\n' || c = '\r' || c = '\x0b' || c = '\x0c'

/-- Strip leading and trailing whitespace, as Python numeric conversion does. -/
def stripWs (s : List Char) : List Char :=
  ((s.dropWhile pyIsSpace).reverse.dropWhile pyIsSpace).reverse

/-- Numeric value of a digit string read left to right. -/
def digitsVal (l : List Char) : Nat :=
  l.foldl (fun acc c => acc * 10 + (c.toNat - 48)) 0

/-- Consume an optional leading sign, returning the sign and the rest. -/
def parseSign : List Char → Int × List Char
  | '+' :: r => (1, r)
  | '-' :: r => (-1, r)
  | r => (1, r)

/-- Tail of a digit run in the PEP 515 grammar `digit (["_"] digit)*`:
every underscore must be immediately followed by a digit, and every other
character must be a digit. -/
def digitsTail : List Char → Bool
  | [] => true
  | '_' :: c :: r => pyIsdigit c && digitsTail r
  | '_' :: [] => false
  | c :: r => pyIsdigit c && digitsTail r

/-- A `digitpart` of the Python numeric-literal grammar (PEP 515):
a nonempty digit run in which underscores appear only between digits —
never leading, trailing or doubled. -/
def pyDigitRun : List Char → Bool
  | [] => false
  | c :: r => pyIsdigit c && digitsTail r

/-- The numeric value of a digit run, ignoring its underscore separators. -/
def digitRunVal (l : List Char) : Nat :=
  digitsVal (l.filter fun c => c ≠ '_')

/-- Model of Python `int(string)` on decimal literals: optional surrounding
whitespace, optional sign, then a digitpart — a nonempty digit run with
PEP 515 underscore separators allowed strictly between digits, so that
1_000 parses to 1000 while _100, 100_ and 1__00 do not parse.  Restricted
to the declared ASCII embedding fragment (no Unicode digits).  Returns
`none` where Python raises `ValueError`. -/
def pyParseInt (s : List Char) : Option Int :=
  let t := stripWs s
  let p := parseSign t
  if pyDigitRun p.2 then some (p.1 * digitRunVal p.2) else none

/-- Split a character list at the first occurrence of `e` or `E`. -/
def splitOnExp : List Char → List Char × Option (List Char)
  | [] => ([], none)
  | c :: r =>
    if c = 'e' || c = 'E' then ([], some r)
    else
      let p := splitOnExp r
      (c :: p.1, p.2)

/-- Split a character list at the first occurrence of a dot. -/
def splitOnDot : List Char → List Char × Option (List Char)
  | [] => ([], none)
  | c :: r =>
    if c = '.' then ([], some r)
    else
      let p := splitOnDot r
      (c :: p.1, p.2)

/-- Parse the mantissa of a float literal per the Python grammar
`digitpart ["." [digitpart]] | "." digitpart`: the integer and fractional
sides are each an optional digitpart (PEP 515 underscores between digits),
with at least one digit overall, so 1_0.5 parses to 10.5 while 1_.5 and
1._5 do not parse.  The exact decimal value is returned, underscores
excluded from the fractional digit count. -/
def parseMantissa (l : List Char) : Option ℚ :=
  let p := splitOnDot l
  match p.2 with
  | none => if pyDigitRun p.1 then some (digitRunVal p.1) else none
  | some fp =>
    if (p.1.isEmpty || pyDigitRun p.1) && (fp.isEmpty || pyDigitRun fp)
        && !(p.1.isEmpty && fp.isEmpty) then
      some ((digitRunVal p.1 : ℚ)
        + (digitRunVal fp : ℚ) / ((10 : ℚ) ^ (fp.filter fun c => c ≠ '_').length))
    else none

/-- Parse the exponent part of a float literal: optional sign, then a
digitpart with PEP 515 underscore separators. -/
def parseExpPart (l : List Char) : Option Int :=
  let p := parseSign l
  if pyDigitRun p.2 then some (p.1 * digitRunVal p.2) else none

/-- Model of Python `float(string)` on finite decimal literals: optional
surrounding whitespace, optional sign, mantissa with an optional dot, and an
optional exponent, with PEP 515 underscore separators allowed strictly
between digits in every digitpart.  Restricted to the declared ASCII
embedding fragment (no Unicode digits).  The value is the exact rational
the literal denotes.  Returns `none` where Python raises `ValueError`. -/
def pyParseFloat (s : List Char) : Option ℚ :=
  let t := stripWs s
  let p := parseSign t
  let q := splitOnExp p.2
  match q.2 with
  | none => (parseMantissa q.1).map (fun m => (p.1 : ℚ) * m)
  | some e =>
    match parseMantissa q.1, parseExpPart e with
    | some m, some ex => some ((p.1 : ℚ) * m * (10 : ℚ) ^ ex)
    | _, _ => none

/-! ## is_valid_snake_case (old_test.py, lines 26-51) -/

/-- Detector for a double underscore, embedding the Python substring test
in the source line `if double_underscore in string`. -/
def hasDoubleUnderscore : List Char → Bool
  | a :: b :: r => (a = '_' && b = '_') || hasDoubleUnderscore (b :: r)
  | _ => false

/-- Embedding of `is_valid_snake_case` from old_test.py: empty strings are
rejected; every character must be a lowercase letter, a digit, or an
underscore; the string may not start or end with an underscore; and it may
not contain a double underscore. -/
def is_valid_snake_case (s : List Char) : Bool :=
  if s.isEmpty then false
  else if !(s.all fun c => pyIslower c || pyIsdigit c || c = '_') then false
  else if s.head? = some '_' || s.getLast? = some '_' then false
  else if hasDoubleUnderscore s then false
  else true

/-! ## DataLoader (loader.py) -/

/-- Error kind raised by DataLoader methods when the file is missing or the
read fails; the pure embedding only ever produces the runtime-error case,
for a CSV with no header row. -/
inductive LoaderError
  | runtimeError
  deriving DecidableEq, Repr

/-- Embedding of `DataLoader.validate_columns` (loader.py lines 40-62).  The
CSV file content is given as its list of rows, each row a list of strings.
The header is the first row; the method returns `all(col in header for col
in required_columns)`.  On a file with no rows, `next(reader)` raises and
the method re-raises a `RuntimeError`. -/
def validate_columns (required_columns : List String) (csvRows : List (List String)) :
    Except LoaderError Bool :=
  match csvRows with
  | [] => .error .runtimeError
  | header :: _ => .ok (required_columns.all fun col => header.contains col)

/-- A cell value after type inference: Python `None`, a string, an `int`,
or a `float` (represented by the exact rational the literal denotes). -/
inductive CellValue
  | none
  | str (s : List Char)
  | intVal (n : Int)
  | floatVal (q : ℚ)
  deriving DecidableEq

/-- The per-cell transformation of `DataLoader.infer_and_convert_types`
(loader.py lines 64-87): `None` and empty values are skipped; a string
containing a dot is converted with `float`, any other string with `int`;
a `ValueError` from either conversion leaves the value as-is.  The input
type records the precondition that every cell is a string or `None`. -/
def convertCell : Option (List Char) → CellValue
  | Option.none => CellValue.none
  | some s =>
    if s.isEmpty then CellValue.str s
    else if s.contains '.' then
      match pyParseFloat s with
      | some q => CellValue.floatVal q
      | Option.none => CellValue.str s
    else
      match pyParseInt s with
      | some n => CellValue.intVal n
      | Option.none => CellValue.str s

/-- Embedding of `DataLoader.infer_and_convert_types` (loader.py lines
64-87): the outer loop runs over the rows, the inner loop over the cells of
each row (keys untouched), applying `convertCell` to every value.  The
function is total: it never raises on string-or-None data. -/
def infer_and_convert_types (data : List (List (String × Option (List Char)))) :
    List (List (String × CellValue)) :=
  data.map fun row => row.map fun kv => (kv.1, convertCell kv.2)

/-! ## Agent-based model (modules absent from the repository) -/

/-- Rounding to two decimal places, as the spec requires for derived prices. -/
def round2 (q : ℚ) : ℚ := (round (q * 100) : ℚ) / 100

/-- Modelled from the spec: error kinds of section 7 — a not-found error for
id lookup misses and a domain error for invalid numeric domains. -/
inductive MarketError
  | notFoundError
  | domainError
  deriving DecidableEq, Repr

/-- Modelled from the spec: the ordinal quality-score enum of House. -/
inductive QualityScore
  | poor
  | fair
  | average
  | good
  | excellent
  deriving DecidableEq, Repr

/-- Modelled from the spec: the consumer market-segment enum. -/
inductive Segment
  | family
  | individual
  | average
  deriving DecidableEq, Repr

/-- Modelled from the spec: the House entity (houses.py is missing).
Prices and areas are exact rationals. -/
structure House where
  id : Nat
  price : ℚ
  area : ℚ
  bedrooms : Nat
  year_built : Int
  quality_score : Option QualityScore
  available : Bool
  deriving DecidableEq, Repr

/-- Modelled from the spec: `calculate_price_per_square_foot` returns
price / area rounded to 2 decimal places and fails with a domain error when
the area is not positive. -/
def House.calculate_price_per_square_foot (h : House) : Except MarketError ℚ :=
  if h.area ≤ 0 then .error .domainError
  else .ok (round2 (h.price / h.area))

/-- Modelled from the spec: `sell_house` sets the availability flag to
false; it is a side effect only and is a no-op on an unavailable house. -/
def House.sell_house (h : House) : House := { h with available := false }

/-- Modelled from the spec: the HousingMarket entity (house_market.py is
missing) — an ordered sequence of houses, fixed after construction. -/
structure HousingMarket where
  houses : List House
  deriving DecidableEq, Repr

/-- The houses an average-price query ranges over — all of them, or the
subset with the given bedroom count. -/
def bedroomSubset (m : HousingMarket) : Option Nat → List House
  | Option.none => m.houses
  | some b => m.houses.filter fun h => h.bedrooms = b

/-- Modelled from the spec: `calculate_average_price` takes the arithmetic
mean of price over all houses, or over the subset with the given bedroom
count, and fails with a domain error when the selected subset is empty. -/
def HousingMarket.calculate_average_price (m : HousingMarket) (bedrooms : Option Nat) :
    Except MarketError ℚ :=
  let subset := bedroomSubset m bedrooms
  if subset.isEmpty then .error .domainError
  else .ok ((subset.map House.price).sum / (subset.length : ℚ))

/-- Modelled from the spec: the requirement policy of a segment — FAMILY
needs a minimum bedroom count, the other segments impose no bedroom floor. -/
def segmentOk (s : Segment) (h : House) : Bool :=
  match s with
  | .family => 2 ≤ h.bedrooms
  | .individual => true
  | .average => true

/-- Modelled from the spec: the ordering of query results — ascending by
price, ties broken by identifier, for determinism. -/
def houseOrder (a b : House) : Prop :=
  a.price < b.price ∨ (a.price = b.price ∧ a.id ≤ b.id)

instance : DecidableRel houseOrder := fun a b => by
  unfold houseOrder; infer_instance

instance : IsTotal House houseOrder := by
  constructor
  intro a b
  rcases lt_trichotomy a.price b.price with h | h | h
  · exact Or.inl (Or.inl h)
  · rcases Nat.le_total a.id b.id with hid | hid
    · exact Or.inl (Or.inr ⟨h, hid⟩)
    · exact Or.inr (Or.inr ⟨h.symm, hid⟩)
  · exact Or.inr (Or.inl h)

instance : IsTrans House houseOrder := by
  constructor
  intro a b c hab hbc
  rcases hab with h1 | ⟨h1, h1id⟩
  · rcases hbc with h2 | ⟨h2, _⟩
    · exact Or.inl (h1.trans h2)
    · exact Or.inl (h2 ▸ h1)
  · rcases hbc with h2 | ⟨h2, h2id⟩
    · exact Or.inl (h1 ▸ h2)
    · exact Or.inr ⟨h1.trans h2, h1id.trans h2id⟩

/-- Modelled from the spec: `get_houses_that_meet_requirements` returns all
available houses whose price is at most the bound and whose attributes
satisfy the requirement policy of the segment, sorted ascending by price
with ties broken by identifier. -/
def HousingMarket.get_houses_that_meet_requirements (m : HousingMarket)
    (max_price : ℚ) (s : Segment) : List House :=
  List.insertionSort houseOrder
    (m.houses.filter fun h => h.available && decide (h.price ≤ max_price) && segmentOk s h)

/-- Modelled from the spec: the Consumer entity (consumers.py is missing).
The owned house is recorded by its identifier. -/
structure Consumer where
  id : Nat
  annual_income : ℚ
  children_number : Nat
  segment : Segment
  house : Option Nat
  savings : ℚ
  saving_rate : ℚ
  interest_rate : ℚ
  deriving DecidableEq, Repr

/-- Modelled from the spec: the per-period savings update of
`compute_savings` — savings becomes savings times one plus the interest
rate, plus income times the saving rate. -/
def savingsUpdate (income rate irate savings : ℚ) : ℚ :=
  savings * (1 + irate) + income * rate

/-- The savings of a consumer after a given number of periods of the
per-period update, counted from the initial savings. -/
def savingsAfter (c : Consumer) : Nat → ℚ
  | 0 => c.savings
  | n + 1 => savingsUpdate c.annual_income c.saving_rate c.interest_rate (savingsAfter c n)

/-- Modelled from the spec: `compute_savings` applies the per-period update
once for each of the given number of sequential periods. -/
def Consumer.compute_savings (c : Consumer) : Nat → Consumer
  | 0 => c
  | n + 1 =>
    Consumer.compute_savings
      { c with savings := savingsUpdate c.annual_income c.saving_rate c.interest_rate c.savings }
      n

/-- Modelled from the spec: the price ceiling a consumer can consider —
savings divided by the down-payment percentage. -/
def maxAffordablePrice (c : Consumer) (down_payment_percentage : ℚ) : ℚ :=
  c.savings / down_payment_percentage

/-- Modelled from the spec: `buy_a_house` queries the market for the houses
meeting the requirements; when the result is non-empty it takes the first
house of the price-ascending order, calls `sell_house` on it and records it
as the owned house; when no house qualifies the owned house stays null and
no error is raised. -/
def Consumer.buy_a_house (c : Consumer) (m : HousingMarket)
    (down_payment_percentage : ℚ) : Consumer × HousingMarket :=
  match m.get_houses_that_meet_requirements (maxAffordablePrice c down_payment_percentage)
      c.segment with
  | [] => (c, m)
  | h :: _ =>
    ({ c with house := some h.id },
     ⟨m.houses.map fun x => if x.id = h.id then x.sell_house else x⟩)

/-- Modelled from the spec: the clearing-mechanism selector enum. -/
inductive CleaningMarketMechanism
  | random
  | income_order_descendant
  | income_order_ascendant
  deriving DecidableEq, Repr

/-- Modelled from the spec: the descending-income priority order — higher
income first. -/
def incomeDescOrder (a b : Consumer) : Prop :=
  b.annual_income ≤ a.annual_income

instance : DecidableRel incomeDescOrder := fun a b => by
  unfold incomeDescOrder; infer_instance

instance : IsTotal Consumer incomeDescOrder :=
  ⟨fun a b => (le_total b.annual_income a.annual_income).imp id id⟩

instance : IsTrans Consumer incomeDescOrder :=
  ⟨fun _ _ _ hab hbc => le_trans hbc hab⟩

/-- Modelled from the spec: the ascending-income priority order. -/
def incomeAscOrder (a b : Consumer) : Prop :=
  a.annual_income ≤ b.annual_income

instance : DecidableRel incomeAscOrder := fun a b => by
  unfold incomeAscOrder; infer_instance

instance : IsTotal Consumer incomeAscOrder :=
  ⟨fun a b => le_total a.annual_income b.annual_income⟩

instance : IsTrans Consumer incomeAscOrder :=
  ⟨fun _ _ _ hab hbc => le_trans hab hbc⟩

/-- Modelled from the spec: the order in which `clean_the_market` processes
the consumers.  The RANDOM mechanism applies the seed-determined shuffle,
passed in as a function; the income-order mechanisms sort by income and
ignore the shuffle. -/
def orderConsumers (mech : CleaningMarketMechanism)
    (shuffle : List Consumer → List Consumer) (consumers : List Consumer) : List Consumer :=
  match mech with
  | .random => shuffle consumers
  | .income_order_descendant => List.insertionSort incomeDescOrder consumers
  | .income_order_ascendant => List.insertionSort incomeAscOrder consumers

/-- Modelled from the spec: the sequential greedy matching pass — each
consumer in turn attempts a purchase against the current market state. -/
def runPurchases (down_payment_percentage : ℚ) :
    List Consumer → HousingMarket → List Consumer × HousingMarket
  | [], m => ([], m)
  | c :: cs, m =>
    let p := c.buy_a_house m down_payment_percentage
    let q := runPurchases down_payment_percentage cs p.2
    (p.1 :: q.1, q.2)

/-- Modelled from the spec: `clean_the_market` resolves the consumer order
with the selected mechanism, then performs the strictly sequential greedy
matching pass.  The returned consumer list is in processed order. -/
def clean_the_market (mech : CleaningMarketMechanism)
    (shuffle : List Consumer → List Consumer) (down_payment_percentage : ℚ)
    (consumers : List Consumer) (m : HousingMarket) : List Consumer × HousingMarket :=
  runPurchases down_payment_percentage (orderConsumers mech shuffle consumers) m

/-- Modelled from the spec: fraction of consumers owning a house. -/
def compute_owners_population_rate (consumers : List Consumer) : ℚ :=
  ((consumers.filter fun c => c.house.isSome).length : ℚ) / (consumers.length : ℚ)

/-- Modelled from the spec: fraction of houses still available. -/
def compute_houses_availability_rate (m : HousingMarket) : ℚ :=
  ((m.houses.filter fun h => h.available).length : ℚ) / (m.houses.length : ℚ)

/-! ## Theorems -/

/-- The double-underscore detector finds exactly the decompositions around
two adjacent underscores. -/
theorem hasDoubleUnderscore_iff (s : List Char) :
    hasDoubleUnderscore s = true ↔ ∃ l₁ l₂, s = l₁ ++ '_' :: '_' :: l₂ := by
  induction s with
  | nil =>
    simp only [hasDoubleUnderscore, Bool.false_eq_true, false_iff, not_exists]
    intro l₁ l₂ h
    cases l₁ <;> simp_all
  | cons a t ih =>
    cases t with
    | nil =>
      simp only [hasDoubleUnderscore, Bool.false_eq_true, false_iff, not_exists]
      intro l₁ l₂ h
      cases l₁ with
      | nil => simp_all
      | cons x xs => cases xs <;> simp_all
    | cons b r =>
      show ((a = '_' && b = '_') || hasDoubleUnderscore (b :: r)) = true ↔ _
      simp only [Bool.or_eq_true, Bool.and_eq_true, decide_eq_true_eq]
      constructor
      · rintro (⟨ha, hb⟩ | hr)
        · exact ⟨[], r, by simp [ha, hb]⟩
        · obtain ⟨l₁, l₂, hl⟩ := ih.mp hr
          exact ⟨a :: l₁, l₂, by simp [hl]⟩
      · rintro ⟨l₁, l₂, hl⟩
        cases l₁ with
        | nil =>
          simp only [List.nil_append, List.cons.injEq] at hl
          exact Or.inl ⟨hl.1, hl.2.1⟩
        | cons x xs =>
          simp only [List.cons_append, List.cons.injEq] at hl
          exact Or.inr (ih.mpr ⟨xs, l₂, hl.2⟩)

/-- C10: `is_valid_snake_case` returns true exactly on nonempty strings
whose characters are all lowercase letters, digits or underscores, that
neither start nor end with an underscore, and that contain no double
underscore; in particular the digit-only string 123 is accepted. -/
theorem C10_is_valid_snake_case_spec :
    (∀ s : List Char,
      is_valid_snake_case s = true ↔
        s ≠ [] ∧ (∀ c ∈ s, pyIslower c = true ∨ pyIsdigit c = true ∨ c = '_') ∧
        s.head? ≠ some '_' ∧ s.getLast? ≠ some '_' ∧
        ¬ ∃ l₁ l₂, s = l₁ ++ '_' :: '_' :: l₂) ∧
    is_valid_snake_case ['1', '2', '3'] = true := by
  refine ⟨fun s => ?_, by decide⟩
  unfold is_valid_snake_case
  split_ifs with h1 h2 h3 h4
  · simp only [List.isEmpty_iff] at h1
    simp [h1]
  · simp only [Bool.not_eq_true', List.all_eq_false] at h2
    obtain ⟨c, hc, hnc⟩ := h2
    simp only [Bool.or_eq_true, decide_eq_true_eq, not_or] at hnc
    simp only [false_iff, not_and]
    intro _ hall
    rcases hall c hc with h | h | h <;> simp_all
  · simp only [Bool.or_eq_true, decide_eq_true_eq] at h3
    simp only [false_iff, not_and]
    intro _ _ hhead hlast
    rcases h3 with h | h
    · exact absurd h hhead
    · exact absurd h hlast
  · rw [hasDoubleUnderscore_iff] at h4
    simp only [false_iff, not_and]
    intro _ _ _ _
    exact fun hn => hn h4
  · simp only [Bool.or_eq_true, decide_eq_true_eq, not_or] at h3
    simp only [List.isEmpty_iff] at h1
    simp only [true_iff]
    have hall : s.all (fun c => pyIslower c || pyIsdigit c || c = '_') = true := by
      revert h2
      cases s.all fun c => pyIslower c || pyIsdigit c || c = '_' <;> simp
    refine ⟨h1, ?_, h3.1, h3.2, fun hex => h4 ((hasDoubleUnderscore_iff s).mpr hex)⟩
    intro c hc
    have hc2 := List.all_eq_true.mp hall c hc
    simpa [Bool.or_eq_true, decide_eq_true_eq, or_assoc] using hc2

/-- C8: `validate_columns` succeeds with true exactly when every required
column occurs in the header row, irrespective of order or extra columns;
with an empty required list it always succeeds with true. -/
theorem C8_validate_columns_spec :
    ∀ (required : List String) (header : List String) (rest : List (List String)),
      (validate_columns required (header :: rest) = .ok true ↔
        ∀ col ∈ required, col ∈ header) ∧
      validate_columns [] (header :: rest) = .ok true := by
  intro required header rest
  constructor
  · simp [validate_columns, List.all_eq_true, List.elem_iff]
  · simp [validate_columns]

/-- C9: on rows whose cells are strings or None, `infer_and_convert_types`
is total (never raises), preserves the list structure and the keys, and
converts each cell as follows: None and the empty string are unchanged, a
string containing a dot that parses as a float becomes that float, any
other string that parses as an int becomes that int, and every remaining
string is unchanged; in particular the PEP 515 literal 1_000 becomes the
int 1000. -/
theorem C9_infer_and_convert_types_spec :
    (∀ data : List (List (String × Option (List Char))),
      infer_and_convert_types data
        = data.map fun row => row.map fun kv => (kv.1, convertCell kv.2)) ∧
    convertCell Option.none = CellValue.none ∧
    convertCell (some []) = CellValue.str [] ∧
    (∀ (s : List Char) (q : ℚ), s.contains '.' = true → pyParseFloat s = some q →
      convertCell (some s) = CellValue.floatVal q) ∧
    (∀ s : List Char, s.contains '.' = true → pyParseFloat s = Option.none →
      convertCell (some s) = CellValue.str s) ∧
    (∀ (s : List Char) (n : Int), s.contains '.' = false → pyParseInt s = some n →
      convertCell (some s) = CellValue.intVal n) ∧
    (∀ s : List Char, s.contains '.' = false → pyParseInt s = Option.none →
      convertCell (some s) = CellValue.str s) ∧
    convertCell (some ['1', '_', '0', '0', '0']) = CellValue.intVal 1000 := by
  refine ⟨fun _ => rfl, rfl, rfl, ?_, ?_, ?_, ?_, by decide⟩
  · intro s q hdot hq
    have hmem : '.' ∈ s := by simpa using hdot
    have hne : s ≠ [] := by rintro rfl; simp at hmem
    simp [convertCell, hne, hmem, hq]
  · intro s hdot hq
    have hmem : '.' ∈ s := by simpa using hdot
    have hne : s ≠ [] := by rintro rfl; simp at hmem
    simp [convertCell, hne, hmem, hq]
  · intro s n hdot hn
    have hmem : '.' ∉ s := by simpa using hdot
    rcases eq_or_ne s [] with rfl | hne
    · simp [pyParseInt, stripWs, parseSign, pyDigitRun] at hn
    · simp [convertCell, hne, hmem, hn]
  · intro s hdot hn
    have hmem : '.' ∉ s := by simpa using hdot
    rcases eq_or_ne s [] with rfl | hne
    · simp [convertCell]
    · simp [convertCell, hne, hmem, hn]

/-- Witness for C9 at a concrete cell: the string 1_000 contains no dot
and parses as the int 1000 under the PEP 515 underscore rule, and the
conversion returns that int. -/
theorem C9_witness :
    convertCell (some ['1', '_', '0', '0', '0']) = CellValue.intVal 1000 :=
  C9_infer_and_convert_types_spec.2.2.2.2.2.1 ['1', '_', '0', '0', '0'] 1000
    (by decide) (by decide)

/-- The shifted-start identity of the savings recursion: starting from the
once-updated savings and running n periods equals running n + 1 periods. -/
theorem savingsAfter_set (c : Consumer) (n : Nat) :
    savingsAfter
        { c with savings := savingsUpdate c.annual_income c.saving_rate c.interest_rate c.savings }
        n
      = savingsAfter c (n + 1) := by
  induction n with
  | zero => rfl
  | succ n ih => simp only [savingsAfter, ih]

/-- `compute_savings` runs the per-period update for the given number of
periods and changes nothing but the savings field. -/
theorem compute_savings_eq (c : Consumer) (n : Nat) :
    Consumer.compute_savings c n = { c with savings := savingsAfter c n } := by
  induction n generalizing c with
  | zero => rfl
  | succ n ih => rw [Consumer.compute_savings, ih, savingsAfter_set]

/-- The consumer of the repository test: savings 20000, saving rate 0.3,
interest rate 0.05, annual income 80000 (old_test.py lines 165-174). -/
def testConsumer : Consumer :=
  { id := 1, annual_income := 80000, children_number := 2, segment := .average,
    house := Option.none, savings := 20000, saving_rate := 0.3, interest_rate := 0.05 }

/-- C1 counterexample: under the per-period update the claim states, the
savings of the test consumer after 5 periods is 158140.78125, which is not
within 1e-6 of the 164771.54 the repository test asserts. -/
theorem C1_counterexample_savings :
    (Consumer.compute_savings testConsumer 5).savings = 158140.78125 ∧
    ¬ |(Consumer.compute_savings testConsumer 5).savings - 164771.54| < 1 / 1000000 := by
  have h : (Consumer.compute_savings testConsumer 5).savings = 158140.78125 := by
    rw [compute_savings_eq]
    show savingsAfter testConsumer 5 = _
    norm_num [savingsAfter, savingsUpdate, testConsumer]
  refine ⟨h, ?_⟩
  rw [h]
  have habs : |(158140.78125 : ℚ) - 164771.54| = 5304607 / 800 := by
    rw [abs_sub_comm, abs_of_nonneg (by norm_num)]
    norm_num
  rw [habs]
  norm_num

/-- C1 (amended): for the test consumer, `compute_savings(5)` applies the
per-period update once for each of the 5 sequential periods, savings
strictly increases each period, and the final savings equals 158140.78125
exactly — not the 164771.54 of the test, which corresponds to applying the
interest to the annual contribution as well. -/
theorem C1_compute_savings_amended :
    Consumer.compute_savings testConsumer 5
        = { testConsumer with savings := savingsAfter testConsumer 5 } ∧
    (∀ n, n < 5 → savingsAfter testConsumer (n + 1)
        = savingsUpdate testConsumer.annual_income testConsumer.saving_rate
            testConsumer.interest_rate (savingsAfter testConsumer n)) ∧
    (∀ n, n < 5 → savingsAfter testConsumer n < savingsAfter testConsumer (n + 1)) ∧
    savingsAfter testConsumer 5 = 158140.78125 := by
  refine ⟨compute_savings_eq testConsumer 5, fun n _ => rfl, ?_, ?_⟩
  · intro n hn
    interval_cases n <;> norm_num [savingsAfter, savingsUpdate, testConsumer]
  · norm_num [savingsAfter, savingsUpdate, testConsumer]

/-- Witness for C1 at period 2: the strict increase holds there. -/
theorem C1_witness :
    2 < 5 ∧ savingsAfter testConsumer 2 < savingsAfter testConsumer 3 :=
  ⟨by decide, C1_compute_savings_amended.2.2.1 2 (by decide)⟩

/-- The house of the repository test (old_test.py lines 106-114). -/
def testHouse : House :=
  { id := 1, price := 200000, area := 2000, bedrooms := 3, year_built := 2010,
    quality_score := some .good, available := true }

/-- C7: for positive area the price per square foot is price divided by
area rounded to two decimals, a non-positive area raises a domain error,
and the test house with price 200000 and area 2000 gives 100. -/
theorem C7_price_per_square_foot_spec :
    (∀ h : House, 0 < h.area →
      h.calculate_price_per_square_foot = .ok (round2 (h.price / h.area))) ∧
    (∀ h : House, h.area ≤ 0 →
      h.calculate_price_per_square_foot = .error .domainError) ∧
    testHouse.calculate_price_per_square_foot = .ok 100 := by
  refine ⟨?_, ?_, ?_⟩
  · intro h ha
    rw [House.calculate_price_per_square_foot, if_neg (not_le.mpr ha)]
  · intro h ha
    rw [House.calculate_price_per_square_foot, if_pos ha]
  · rw [House.calculate_price_per_square_foot, if_neg (by norm_num [testHouse])]
    norm_num [testHouse, round2, round_eq]

/-- Witness for C7: the test house has positive area and the theorem
computes its price per square foot. -/
theorem C7_witness :
    (0 : ℚ) < testHouse.area ∧
      testHouse.calculate_price_per_square_foot
        = .ok (round2 (testHouse.price / testHouse.area)) :=
  ⟨by norm_num [testHouse], C7_price_per_square_foot_spec.1 testHouse (by norm_num [testHouse])⟩

/-- The three-house market of the repository test (old_test.py lines
239-243), priced 300000, 250000 and 400000. -/
def threeHouseMarket : HousingMarket :=
  ⟨[{ id := 1, price := 300000, area := 1500, bedrooms := 3, year_built := 2020,
      quality_score := some .excellent, available := true },
    { id := 2, price := 250000, area := 1200, bedrooms := 2, year_built := 2018,
      quality_score := some .good, available := true },
    { id := 3, price := 400000, area := 1800, bedrooms := 4, year_built := 2019,
      quality_score := some .excellent, available := true }]⟩

/-- C4: the average price is the arithmetic mean over the selected subset,
an empty subset raises a domain error rather than dividing by zero, and the
unfiltered average over the three test houses rounds to 316666.67. -/
theorem C4_average_price_spec :
    (∀ (m : HousingMarket) (br : Option Nat), bedroomSubset m br ≠ [] →
      m.calculate_average_price br
        = .ok (((bedroomSubset m br).map House.price).sum
            / ((bedroomSubset m br).length : ℚ))) ∧
    (∀ (m : HousingMarket) (br : Option Nat), bedroomSubset m br = [] →
      m.calculate_average_price br = .error .domainError) ∧
    threeHouseMarket.calculate_average_price Option.none = .ok (950000 / 3) ∧
    round2 (950000 / 3) = 316666.67 := by
  refine ⟨?_, ?_, ?_, ?_⟩
  · intro m br hne
    rw [HousingMarket.calculate_average_price]
    simp only [List.isEmpty_iff, hne, if_false]
  · intro m br he
    rw [HousingMarket.calculate_average_price]
    simp only [List.isEmpty_iff, he, if_true]
  · rw [HousingMarket.calculate_average_price]
    norm_num [threeHouseMarket, bedroomSubset]
  · norm_num [round2, round_eq]

/-- Witness for C4: the unfiltered subset of the test market is nonempty
and the theorem yields its mean price. -/
theorem C4_witness :
    bedroomSubset threeHouseMarket Option.none ≠ [] ∧
      threeHouseMarket.calculate_average_price Option.none
        = .ok (((bedroomSubset threeHouseMarket Option.none).map House.price).sum
            / ((bedroomSubset threeHouseMarket Option.none).length : ℚ)) :=
  ⟨by simp [bedroomSubset, threeHouseMarket],
    C4_average_price_spec.1 threeHouseMarket Option.none
      (by simp [bedroomSubset, threeHouseMarket])⟩

/-- C3: `buy_a_house` queries the requirement filter; with a non-empty
result it takes the first house of the price-ascending order — a cheapest
qualifying house — marks it sold via `sell_house` and records it as the
owned house; with an empty result it changes nothing and raises no error. -/
theorem C3_buy_a_house_spec :
    ∀ (c : Consumer) (m : HousingMarket) (dpp : ℚ),
      (m.get_houses_that_meet_requirements (maxAffordablePrice c dpp) c.segment = [] →
        c.buy_a_house m dpp = (c, m)) ∧
      (∀ h t,
        m.get_houses_that_meet_requirements (maxAffordablePrice c dpp) c.segment = h :: t →
        (c.buy_a_house m dpp).1 = { c with house := some h.id } ∧
        (∀ x ∈ m.get_houses_that_meet_requirements (maxAffordablePrice c dpp) c.segment,
          h.price ≤ x.price) ∧
        (∀ x ∈ m.houses, x.available = true → x.price ≤ maxAffordablePrice c dpp →
          segmentOk c.segment x = true → h.price ≤ x.price) ∧
        (c.buy_a_house m dpp).2.houses
          = m.houses.map fun x => if x.id = h.id then x.sell_house else x) := by
  intro c m dpp
  constructor
  · intro he
    rw [Consumer.buy_a_house, he]
  · intro h t hht
    have hsort : List.Sorted houseOrder
        (m.get_houses_that_meet_requirements (maxAffordablePrice c dpp) c.segment) :=
      List.sorted_insertionSort houseOrder _
    rw [hht] at hsort
    have hmin : ∀ x ∈ h :: t, h.price ≤ x.price := by
      intro x hx
      rcases List.mem_cons.mp hx with rfl | hx2
      · exact le_refl _
      · rcases List.rel_of_sorted_cons hsort x hx2 with hlt | ⟨heq, _⟩
        · exact le_of_lt hlt
        · exact le_of_eq heq
    refine ⟨?_, by rw [hht]; exact hmin, ?_, ?_⟩
    · rw [Consumer.buy_a_house, hht]
    · intro x hxm hav hpr hseg
      have hxf : x ∈ m.houses.filter
          (fun y => y.available && decide (y.price ≤ maxAffordablePrice c dpp)
            && segmentOk c.segment y) := by
        rw [List.mem_filter]
        exact ⟨hxm, by simp [hav, hpr, hseg]⟩
      have hxs : x ∈ h :: t := by
        rw [← hht]
        exact ((List.perm_insertionSort houseOrder _).mem_iff).mpr hxf
      exact hmin x hxs
    · rw [Consumer.buy_a_house, hht]

/-- Witness for C3 on a one-house market the test consumer can afford with
a down-payment percentage of one: the query returns that house and the
theorem applies with it. -/
theorem C3_witness :
    HousingMarket.get_houses_that_meet_requirements ⟨[testHouse]⟩
        (maxAffordablePrice testConsumer 0.1) testConsumer.segment = [testHouse] ∧
      (testConsumer.buy_a_house ⟨[testHouse]⟩ 0.1).1
        = { testConsumer with house := some testHouse.id } := by
  have hq : HousingMarket.get_houses_that_meet_requirements ⟨[testHouse]⟩
      (maxAffordablePrice testConsumer 0.1) testConsumer.segment = [testHouse] := by
    rw [HousingMarket.get_houses_that_meet_requirements]
    norm_num [testHouse, testConsumer, maxAffordablePrice, List.filter_cons, segmentOk]
  exact ⟨hq,
    ((C3_buy_a_house_spec testConsumer ⟨[testHouse]⟩ 0.1).2 testHouse [] hq).1⟩

/-- One purchase step preserves the house count. -/
theorem buy_a_house_houses_length (c : Consumer) (m : HousingMarket) (dpp : ℚ) :
    (c.buy_a_house m dpp).2.houses.length = m.houses.length := by
  rw [Consumer.buy_a_house]
  cases hm : m.get_houses_that_meet_requirements (maxAffordablePrice c dpp) c.segment with
  | nil => rfl
  | cons h t => simp

/-- One purchase step acts pointwise on the house list: identifier, price
and the other fixed fields are kept, and availability can only be cleared,
never set. -/
theorem buy_a_house_houses_get (c : Consumer) (m : HousingMarket) (dpp : ℚ)
    (i : Nat) (h2 : House) (hg : (c.buy_a_house m dpp).2.houses[i]? = some h2) :
    ∃ h1, m.houses[i]? = some h1 ∧ h2.id = h1.id ∧ h2.price = h1.price ∧
      (h2.available = true → h1.available = true) := by
  rw [Consumer.buy_a_house] at hg
  cases hm : m.get_houses_that_meet_requirements (maxAffordablePrice c dpp) c.segment with
  | nil =>
    rw [hm] at hg
    exact ⟨h2, hg, rfl, rfl, fun hx => hx⟩
  | cons h t =>
    rw [hm] at hg
    simp only [List.getElem?_map] at hg
    cases hx : m.houses[i]? with
    | none => rw [hx] at hg; cases hg
    | some h1 =>
      rw [hx] at hg
      simp only [Option.map_some'] at hg
      have hh2 : h2 = if h1.id = h.id then h1.sell_house else h1 := by
        injection hg with hg2
        exact hg2.symm
      subst hh2
      refine ⟨h1, rfl, ?_, ?_, ?_⟩
      · split_ifs <;> rfl
      · split_ifs <;> rfl
      · split_ifs with hid
        · simp [House.sell_house]
        · exact fun hx2 => hx2

/-- The sequential matching pass preserves the house count. -/
theorem runPurchases_houses_length (dpp : ℚ) (cs : List Consumer) (m : HousingMarket) :
    (runPurchases dpp cs m).2.houses.length = m.houses.length := by
  induction cs generalizing m with
  | nil => rfl
  | cons c cs ih =>
    simp only [runPurchases]
    rw [ih, buy_a_house_houses_length]

/-- The sequential matching pass returns one consumer per consumer. -/
theorem runPurchases_fst_length (dpp : ℚ) (cs : List Consumer) (m : HousingMarket) :
    (runPurchases dpp cs m).1.length = cs.length := by
  induction cs generalizing m with
  | nil => rfl
  | cons c cs ih => simp only [runPurchases, List.length_cons, ih]

/-- The sequential matching pass acts pointwise on the house list with
monotone availability. -/
theorem runPurchases_houses_get (dpp : ℚ) (cs : List Consumer) (m : HousingMarket)
    (i : Nat) (h2 : House) (hg : (runPurchases dpp cs m).2.houses[i]? = some h2) :
    ∃ h1, m.houses[i]? = some h1 ∧ h2.id = h1.id ∧ h2.price = h1.price ∧
      (h2.available = true → h1.available = true) := by
  induction cs generalizing m with
  | nil => exact ⟨h2, hg, rfl, rfl, fun hx => hx⟩
  | cons c cs ih =>
    simp only [runPurchases] at hg
    obtain ⟨hmid, hg1, hid1, hpr1, hav1⟩ := ih _ hg
    obtain ⟨h1, hg0, hid0, hpr0, hav0⟩ := buy_a_house_houses_get c m dpp i hmid hg1
    exact ⟨h1, hg0, hid1.trans hid0, hpr1.trans hpr0, fun hx => hav0 (hav1 hx)⟩

/-- When the seed-determined shuffle is a permutation, every mechanism
orders the consumers into a permutation of the original population. -/
theorem orderConsumers_perm (mech : CleaningMarketMechanism)
    (shuffle : List Consumer → List Consumer) (cs : List Consumer)
    (hs : List.Perm (shuffle cs) cs) : List.Perm (orderConsumers mech shuffle cs) cs := by
  cases mech with
  | random => exact hs
  | income_order_descendant => exact List.perm_insertionSort _ _
  | income_order_ascendant => exact List.perm_insertionSort _ _

/-- C6: `sell_house` clears the availability flag, is a no-op on an
already-unavailable house, and along one purchase as well as along a whole
market-clearing run every house keeps its identity and its availability is
monotone — never false to true, so true to false at most once. -/
theorem C6_availability_monotone :
    (∀ h : House, (h.sell_house).available = false) ∧
    (∀ h : House, h.available = false → h.sell_house = h) ∧
    (∀ (c : Consumer) (m : HousingMarket) (dpp : ℚ) (i : Nat) (h2 : House),
      (c.buy_a_house m dpp).2.houses[i]? = some h2 →
      ∃ h1, m.houses[i]? = some h1 ∧ h2.id = h1.id ∧
        (h2.available = true → h1.available = true)) ∧
    (∀ (mech : CleaningMarketMechanism) (shuffle : List Consumer → List Consumer)
        (dpp : ℚ) (consumers : List Consumer) (m : HousingMarket) (i : Nat) (h2 : House),
      (clean_the_market mech shuffle dpp consumers m).2.houses[i]? = some h2 →
      ∃ h1, m.houses[i]? = some h1 ∧ h2.id = h1.id ∧
        (h2.available = true → h1.available = true)) := by
  refine ⟨fun h => rfl, ?_, ?_, ?_⟩
  · intro h hav
    cases h
    simp_all [House.sell_house]
  · intro c m dpp i h2 hg
    obtain ⟨h1, a, b, _, d⟩ := buy_a_house_houses_get c m dpp i h2 hg
    exact ⟨h1, a, b, d⟩
  · intro mech shuffle dpp consumers m i h2 hg
    simp only [clean_the_market] at hg
    obtain ⟨h1, a, b, _, d⟩ := runPurchases_houses_get dpp _ m i h2 hg
    exact ⟨h1, a, b, d⟩

/-- Witness for C6: selling an already-unavailable house changes nothing. -/
theorem C6_witness :
    ({ testHouse with available := false } : House).available = false ∧
      House.sell_house { testHouse with available := false }
        = { testHouse with available := false } :=
  ⟨rfl, C6_availability_monotone.2.1 { testHouse with available := false } rfl⟩

/-- The fraction of list elements satisfying a predicate lies in the unit
interval whenever the list is nonempty. -/
theorem filter_ratio_bounds {α : Type} (p : α → Bool) (l : List α) (hl : l ≠ []) :
    0 ≤ ((l.filter p).length : ℚ) / (l.length : ℚ) ∧
      ((l.filter p).length : ℚ) / (l.length : ℚ) ≤ 1 := by
  have hpos : (0 : ℚ) < (l.length : ℚ) := by
    have h0 : 0 < l.length := List.length_pos.mpr hl
    exact_mod_cast h0
  constructor
  · positivity
  · rw [div_le_one hpos]
    exact_mod_cast List.length_filter_le p l

/-- C2: after a market-clearing run over a nonempty population and a
nonempty market, the ownership rate is exactly the owner count divided by
the number of consumers, the availability rate is exactly the available
count divided by the number of houses, and both lie in the unit interval. -/
theorem C2_rates_spec :
    ∀ (mech : CleaningMarketMechanism) (shuffle : List Consumer → List Consumer)
      (dpp : ℚ) (consumers : List Consumer) (m : HousingMarket),
      List.Perm (shuffle consumers) consumers → consumers ≠ [] → m.houses ≠ [] →
      compute_owners_population_rate (clean_the_market mech shuffle dpp consumers m).1
          = (((clean_the_market mech shuffle dpp consumers m).1.filter
              fun c => c.house.isSome).length : ℚ) / (consumers.length : ℚ) ∧
      0 ≤ compute_owners_population_rate (clean_the_market mech shuffle dpp consumers m).1 ∧
      compute_owners_population_rate (clean_the_market mech shuffle dpp consumers m).1 ≤ 1 ∧
      compute_houses_availability_rate (clean_the_market mech shuffle dpp consumers m).2
          = (((clean_the_market mech shuffle dpp consumers m).2.houses.filter
              fun h => h.available).length : ℚ) / (m.houses.length : ℚ) ∧
      0 ≤ compute_houses_availability_rate (clean_the_market mech shuffle dpp consumers m).2 ∧
      compute_houses_availability_rate (clean_the_market mech shuffle dpp consumers m).2 ≤ 1 := by
  intro mech shuffle dpp consumers m hs hc hm
  have hlen1 : (clean_the_market mech shuffle dpp consumers m).1.length = consumers.length := by
    rw [clean_the_market, runPurchases_fst_length]
    exact (orderConsumers_perm mech shuffle consumers hs).length_eq
  have hlen2 : (clean_the_market mech shuffle dpp consumers m).2.houses.length
      = m.houses.length := by
    rw [clean_the_market, runPurchases_houses_length]
  have hc2 : (clean_the_market mech shuffle dpp consumers m).1 ≠ [] := by
    intro h0
    apply hc
    have := hlen1
    rw [h0] at this
    exact List.eq_nil_of_length_eq_zero this.symm
  have hm2 : (clean_the_market mech shuffle dpp consumers m).2.houses ≠ [] := by
    intro h0
    apply hm
    have := hlen2
    rw [h0] at this
    exact List.eq_nil_of_length_eq_zero this.symm
  refine ⟨?_, ?_, ?_, ?_, ?_, ?_⟩
  · rw [compute_owners_population_rate, hlen1]
  · exact (filter_ratio_bounds _ _ hc2).1
  · exact (filter_ratio_bounds _ _ hc2).2
  · rw [compute_houses_availability_rate, hlen2]
  · exact (filter_ratio_bounds _ _ hm2).1
  · exact (filter_ratio_bounds _ _ hm2).2

/-- Witness for C2 on a singleton population and market. -/
theorem C2_witness :
    0 ≤ compute_owners_population_rate
        (clean_the_market .random id 0.2 [testConsumer] ⟨[testHouse]⟩).1 ∧
      compute_owners_population_rate
        (clean_the_market .random id 0.2 [testConsumer] ⟨[testHouse]⟩).1 ≤ 1 := by
  have hspec := C2_rates_spec .random id 0.2 [testConsumer] ⟨[testHouse]⟩
    (List.Perm.refl _) (List.cons_ne_nil _ _) (List.cons_ne_nil _ _)
  exact ⟨hspec.2.1, hspec.2.2.1⟩

/-- The descending-income order puts the strictly richer of two consumers
first. -/
theorem orderConsumers_desc_pair (c1 c2 : Consumer)
    (shuffle : List Consumer → List Consumer)
    (hinc : c2.annual_income < c1.annual_income) :
    orderConsumers .income_order_descendant shuffle [c1, c2] = [c1, c2] := by
  show List.orderedInsert incomeDescOrder c1 [c2] = [c1, c2]
  simp only [List.orderedInsert]
  rw [if_pos (show incomeDescOrder c1 c2 from le_of_lt hinc)]

/-- C5: the descending-income mechanism ignores the random seed, always
produces a non-increasing income order, and in the two-consumer one-house
scenario where both can afford the house, the market-clearing run gives the
house to the strictly higher-income consumer and leaves the other without
one. -/
theorem C5_income_order_descendant_spec :
    (∀ (consumers : List Consumer) (s1 s2 : List Consumer → List Consumer),
      orderConsumers .income_order_descendant s1 consumers
        = orderConsumers .income_order_descendant s2 consumers) ∧
    (∀ (consumers : List Consumer) (shuffle : List Consumer → List Consumer),
      List.Sorted incomeDescOrder
        (orderConsumers .income_order_descendant shuffle consumers)) ∧
    (∀ (c1 c2 : Consumer) (h : House) (shuffle : List Consumer → List Consumer) (dpp : ℚ),
      c2.house = Option.none →
      c2.annual_income < c1.annual_income →
      h.available = true →
      h.price ≤ maxAffordablePrice c1 dpp →
      h.price ≤ maxAffordablePrice c2 dpp →
      segmentOk c1.segment h = true →
      segmentOk c2.segment h = true →
      clean_the_market .income_order_descendant shuffle dpp [c1, c2] ⟨[h]⟩
        = ([{ c1 with house := some h.id }, c2], ⟨[h.sell_house]⟩)) := by
  refine ⟨fun _ _ _ => rfl, fun consumers _ => List.sorted_insertionSort _ _, ?_⟩
  intro c1 c2 h shuffle dpp _ hinc hav hpr1 hpr2 hseg1 hseg2
  have hbuy1 : c1.buy_a_house ⟨[h]⟩ dpp
      = ({ c1 with house := some h.id }, ⟨[h.sell_house]⟩) := by
    have hq : HousingMarket.get_houses_that_meet_requirements ⟨[h]⟩
        (maxAffordablePrice c1 dpp) c1.segment = [h] := by
      rw [HousingMarket.get_houses_that_meet_requirements]
      simp [List.filter_cons, hav, hpr1, hseg1]
    rw [Consumer.buy_a_house, hq]
    simp
  have hbuy2 : Consumer.buy_a_house c2 ⟨[h.sell_house]⟩ dpp = (c2, ⟨[h.sell_house]⟩) := by
    have hq : HousingMarket.get_houses_that_meet_requirements ⟨[h.sell_house]⟩
        (maxAffordablePrice c2 dpp) c2.segment = [] := by
      rw [HousingMarket.get_houses_that_meet_requirements]
      simp [List.filter_cons, House.sell_house]
    rw [Consumer.buy_a_house, hq]
  rw [clean_the_market, orderConsumers_desc_pair c1 c2 shuffle hinc]
  simp only [runPurchases, hbuy1, hbuy2]

/-- The higher-income consumer of the C5 witness scenario. -/
def richConsumer : Consumer :=
  { id := 2, annual_income := 100000, children_number := 0, segment := .average,
    house := Option.none, savings := 50000, saving_rate := 0.3, interest_rate := 0.05 }

/-- The lower-income consumer of the C5 witness scenario. -/
def poorConsumer : Consumer :=
  { id := 3, annual_income := 50000, children_number := 1, segment := .average,
    house := Option.none, savings := 50000, saving_rate := 0.3, interest_rate := 0.05 }

/-- Witness for C5: with incomes 100000 versus 50000 and one affordable
house, the richer consumer ends the run owning it. -/
theorem C5_witness :
    poorConsumer.annual_income < richConsumer.annual_income ∧
      clean_the_market .income_order_descendant id 0.1 [richConsumer, poorConsumer]
          ⟨[testHouse]⟩
        = ([{ richConsumer with house := some testHouse.id }, poorConsumer],
            ⟨[testHouse.sell_house]⟩) := by
  refine ⟨by norm_num [richConsumer, poorConsumer], ?_⟩
  exact C5_income_order_descendant_spec.2.2 richConsumer poorConsumer testHouse id 0.1
    rfl (by norm_num [richConsumer, poorConsumer]) rfl
    (by norm_num [maxAffordablePrice, richConsumer, testHouse])
    (by norm_num [maxAffordablePrice, poorConsumer, testHouse]) rfl rfl

end RealEstate
